import Mathlib

/-!
Verification of the data-access layer in `src/Database.js` (digitallinguistics/db).

The JavaScript source is shallowly embedded as pure Lean functions.  The external
storage provider (Cosmos DB), out of scope of the repository, is passed in as an
explicit function argument wherever the source awaits a provider call, and the
value a JavaScript method throws (rather than returns) is modelled with
`Except`/`Option`.  Dispatch order of bulk/batch chunks is made observable by
returning, next to the response, the list of chunks actually handed to the
provider.
-/

/-- Fuel-indexed worker for `chunk`.  The fuel argument only forces structural
recursion; `chunk` always supplies fuel at least the length of the list, which
makes the exhausted-fuel arm unreachable. -/
def chunkFuel : Nat → List α → Nat → List (List α)
  | _, [], _ => []
  | 0, _ :: _, _ => []
  | fuel + 1, x :: xs, size => (x :: xs.take (size - 1)) :: chunkFuel fuel (xs.drop (size - 1)) size

/-- Modelled from the spec: `src/utilities/chunk.js` is imported by
`src/Database.js` but is not under `src/`.  Per the spec (section 4.1), `chunk`
splits `items` into consecutive groups of at most `size` elements, preserving
the original order; the last group may be smaller; empty input yields an empty
sequence of chunks. -/
def chunk (items : List α) (size : Nat) : List (List α) :=
  chunkFuel items.length items size

/-- Modelled from the spec: `src/DatabaseResponse.js` is not under `src/`.
The spec's NormalizedResponse is the uniform result returned to all callers,
a record with optional `data`, optional `message` and a `status`. -/
structure DatabaseResponse (δ : Type) where
  data? : Option δ
  message? : Option String
  status? : Option Nat
deriving DecidableEq, Repr

/-- Modelled from the spec: the `DatabaseResponse` constructor.  The spec's
invariant states that `status` is always present on every NormalizedResponse,
so the constructor supplies a default status (200) when the call site omits
one; `data` and `message` are stored exactly as given. -/
def DatabaseResponse.make (d : Option δ) (m : Option String) (s : Option Nat) :
    DatabaseResponse δ :=
  ⟨d, m, some (s.getD 200)⟩

namespace Database

/-- Cosmos DB's limit on bulk operations (`this.bulkLimit = 100`). -/
def bulkLimit : Nat := 100

/-- One operation of a batch call, as built by `addMany`:
`\x7b operationType, resourceBody \x7d`. -/
structure Operation (α : Type) where
  operationType : String
  resourceBody : α
deriving DecidableEq, Repr

/-- One per-operation result inside a provider bulk/batch response.  The
`resourceBody` is optional because failed sub-operations carry none. -/
structure OperationResult (α : Type) where
  statusCode : Nat
  resourceBody : Option α
deriving DecidableEq, Repr

instance : Inhabited (OperationResult α) := ⟨⟨0, none⟩⟩

/-- The provider's aggregate response to one `items.batch(batch, partitionKey)`
call: an aggregate `code` and the raw per-operation `result` list. -/
structure BatchResponse (α : Type) where
  code : Nat
  result : List (OperationResult α)
deriving DecidableEq, Repr

/-- The `data` payload of an `addMany` response is dynamically typed in the
source: the raw per-operation results on aggregate code 207, or the list of
`resourceBody` values (line 241) on full success. -/
inductive AddManyData (α : Type) where
  | raw (results : List (OperationResult α))
  | bodies (l : List (Option α))
deriving DecidableEq, Repr

/-- Result of an `addMany` invocation: the returned response plus the list of
chunks actually dispatched to the provider, in dispatch order. -/
structure AddManyOut (α : Type) where
  response : DatabaseResponse (AddManyData α)
  dispatched : List (List (Operation α))
deriving DecidableEq, Repr

/-- The `for (const batch of batches)` loop of `addMany` (lines 224-246).
`acc` is the `results` array accumulated across already-dispatched chunks.
On aggregate code 207 the loop returns at once with the raw results of the
offending chunk; otherwise the chunk's results are appended and the loop
continues; when the batches are exhausted the `resourceBody` projections of
the accumulated results are returned with status 201. -/
def addManyGo (batchFn : List (Operation α) → BatchResponse α) :
    List (List (Operation α)) → List (OperationResult α) → AddManyOut α
  | [], acc =>
      ⟨DatabaseResponse.make (some (.bodies (acc.map (·.resourceBody)))) none (some 201), []⟩
  | b :: rest, acc =>
      let response := batchFn b
      if response.code = 207 then
        ⟨DatabaseResponse.make (some (.raw response.result)) none (some 207), [b]⟩
      else
        let out := addManyGo batchFn rest (acc ++ response.result)
        ⟨out.response, b :: out.dispatched⟩

/-- The operations list built by `addMany` (lines 216-219): every item becomes
a `Create` operation carrying the item as its `resourceBody`. -/
def createOps (items : List α) : List (Operation α) :=
  items.map fun resourceBody => ⟨"Create", resourceBody⟩

/-- Embedding of `Database.addMany(container, partitionKey, items)`
(lines 212-248).  The provider call
`this[container].items.batch(batch, partitionKey)` is abstracted as `batchFn`
(the container and partition key are fixed inside it). -/
def addMany (batchFn : List (Operation α) → BatchResponse α) (items : List α) :
    AddManyOut α :=
  addManyGo batchFn (chunk (createOps items) bulkLimit) []

/-- One operation of a `getMany` bulk call (line 319):
an id, the operation type `Read`, and the partition key. -/
structure ReadOperation where
  id : String
  operationType : String
  partitionKey : String
deriving DecidableEq, Repr

/-- One entry of the `data` list built by `getMany` (lines 322-326).  The `id`
is read off `operations[i]`, which in JavaScript is `undefined` when the
provider returned more results than operations, hence the `Option`. -/
structure GetManyEntry (α : Type) where
  data : Option α
  id : Option String
  status : Nat
deriving DecidableEq, Repr

instance : Inhabited (GetManyEntry α) := ⟨⟨none, none, 0⟩⟩

/-- Result of a `getMany` invocation: the returned response plus the list of
bulk dispatches actually handed to the provider (at most one). -/
structure GetManyOut (α : Type) where
  response : DatabaseResponse (List (GetManyEntry α))
  dispatched : List (List ReadOperation)
deriving DecidableEq, Repr

/-- The message of the limit guard of `getMany` (line 313). -/
def limitMessage : String :=
  "You can only retrieve " ++ toString bulkLimit ++ " items at a time."

/-- Embedding of `Database.getMany(container, partitionKey, ids)`
(lines 309-333).  `bulkFn` abstracts the provider call
`this[container].items.bulk(operations, \x7b continueOnError: true \x7d)`.
If more than `bulkLimit` ids are requested, a 400 response is returned before
any dispatch; otherwise the single bulk dispatch is performed and every
provider result is paired, by position, with the id of the operation that
produced it, under an overall status of 207. -/
def getMany (bulkFn : List ReadOperation → List (OperationResult α))
    (partitionKey : String) (ids : List String) : GetManyOut α :=
  if ids.length > bulkLimit then
    ⟨DatabaseResponse.make none (some limitMessage) (some 400), []⟩
  else
    let operations := ids.map fun id => ReadOperation.mk id "Read" partitionKey
    let results := bulkFn operations
    let data := results.mapIdx fun i r =>
      GetManyEntry.mk r.resourceBody ((operations.get? i).map (·.id)) r.statusCode
    ⟨DatabaseResponse.make (some data) none (some 207), [operations]⟩

/-- A record as far as `addOne`'s error message is concerned: `data.id` is
interpolated into the conflict message (line 197). -/
structure Item where
  id : String
  payload : Nat
deriving DecidableEq, Repr

/-- A provider-side error, as caught by `addOne`: a status `code` and a
`message`. -/
structure ErrorInfo where
  code : Nat
  message : String
deriving DecidableEq, Repr

/-- The provider's response to a successful point create: the stored resource
and a status code. -/
structure CreateResult where
  resource : Item
  statusCode : Nat
deriving DecidableEq, Repr

/-- Embedding of `Database.addOne(container, data)` (lines 186-202).
`validateFn` abstracts the `validate` collaborator; it is called before the
`try` block, so a validation error propagates out of `addOne` unhandled
(modelled by `Except.error`).  `createFn` abstracts
`this[container].items.create(data)`; its errors are caught: a 409 is rewritten
to the conflict message, anything else passes its message and code through. -/
def addOne (validateFn : Item → Except ErrorInfo Unit)
    (createFn : Item → Except ErrorInfo CreateResult) (data : Item) :
    Except ErrorInfo (DatabaseResponse Item) :=
  match validateFn data with
  | .error e => .error e
  | .ok _ =>
    match createFn data with
    | .ok res => .ok (DatabaseResponse.make (some res.resource) none (some res.statusCode))
    | .error err =>
      let message :=
        if err.code = 409 then "Item with ID " ++ data.id ++ " already exists."
        else err.message
      .ok (DatabaseResponse.make none (some message) (some err.code))

/-- Modelled from the spec: the storage provider itself is an external
collaborator (not under `src/`).  Per the spec's error taxonomy, a point
create whose id already exists in the container fails with a uniqueness
conflict, status code 409; otherwise the item is stored. -/
def storeCreate (store : List Item) (data : Item) : Except ErrorInfo CreateResult :=
  if store.any fun item => item.id == data.id then
    .error ⟨409, "Entity with the specified id already exists in the system."⟩
  else
    .ok ⟨data, 201⟩

/-- Which permissions array an `ARRAY_CONTAINS` clause inspects. -/
inductive PermField where
  | owners
  | editors
  | viewers
deriving DecidableEq, Repr

/-- Shallow embedding of the filter predicates the query strings of
`Database.js` are assembled from.  Each constructor denotes one SQL fragment:
`typeEq t` is `c.type = 't'`, `languageEq l` is `c.language.id = 'l'`,
`projectExists p` is the `EXISTS(... WHERE project.id = 'p')` sub-query over
`c.projects`, `isPublic` is `c.permissions.public = true`, and
`inPerm f u` is `ARRAY_CONTAINS(c.permissions.f, 'u')`; `and`/`or` are the SQL
connectives the source interposes. -/
inductive Clause where
  | typeEq (t : String)
  | languageEq (l : String)
  | projectExists (p : String)
  | isPublic
  | inPerm (f : PermField) (u : String)
  | and (a b : Clause)
  | or (a b : Clause)
deriving DecidableEq, Repr

/-- The permissions object of a project record. -/
structure Permissions where
  isPublic : Bool
  owners : List String
  editors : List String
  viewers : List String
deriving DecidableEq, Repr

/-- A stored record, restricted to the fields the queries of `Database.js`
inspect: `type`, `language.id`, the ids of the `projects` array, and the
`permissions` object. -/
structure DBRecord where
  type : String
  languageId : String
  projects : List String
  permissions : Permissions
deriving DecidableEq, Repr

/-- Evaluation of a query clause against one stored record, i.e. whether that
record is selected by the provider when given the corresponding query text. -/
def Clause.eval (r : DBRecord) : Clause → Bool
  | typeEq t => r.type == t
  | languageEq l => r.languageId == l
  | projectExists p => r.projects.contains p
  | isPublic => r.permissions.isPublic
  | inPerm .owners u => r.permissions.owners.contains u
  | inPerm .editors u => r.permissions.editors.contains u
  | inPerm .viewers u => r.permissions.viewers.contains u
  | and a b => a.eval r && b.eval r
  | or a b => a.eval r || b.eval r

/-- JavaScript truthiness of an optional string value: `none` models an absent
(or `undefined`) value and the empty string is falsy. -/
def strTruthy : Option String → Bool
  | none => false
  | some s => !(s == "")

/-- The filter options of `count` (lines 261-264). -/
structure CountOptions where
  language : Option String
  project : Option String
deriving DecidableEq, Repr

/-- The query assembled by `count` (lines 266-276): a base `type` equality,
then one `AND` clause per truthy option, `language` first. -/
def countQuery (type : String) (options : CountOptions) : Clause :=
  let query := Clause.typeEq type
  let query :=
    if strTruthy options.language then query.and (.languageEq (options.language.getD ""))
    else query
  if strTruthy options.project then query.and (.projectExists (options.project.getD ""))
  else query

/-- One row of a provider aggregate-query result.  Cosmos DB names the
aggregate of `SELECT COUNT(c)` `$1`; an absent key reads as `undefined`,
hence the `Option`. -/
structure AggRow where
  agg1 : Option Nat
deriving DecidableEq, Repr

/-- The `data` payload of a `count` response (line 281). -/
structure CountData where
  count : Option Nat
deriving DecidableEq, Repr

/-- Embedding of `Database.count(type, options)` (lines 261-283).  `queryFn`
abstracts `this[container].items.query(query).fetchAll()`, returning the
`resources` rows.  Line 279 destructures the first row
(`const [\x7b $1: count \x7d] = resources`), which throws a `TypeError` when
`resources` is empty; the throw is modelled by `none`. -/
def count (queryFn : Clause → List AggRow) (type : String) (options : CountOptions) :
    Option (DatabaseResponse CountData) :=
  match queryFn (countQuery type options) with
  | [] => none
  | row :: _ => some (DatabaseResponse.make (some ⟨row.agg1⟩) none none)

/-- The options of `getProjects` (lines 434-438), as three states: `none`
models an options object without a `user` key; `some u` models a present
`user` value, the empty string standing for a present-but-falsy value. -/
def getProjectsQuery (user? : Option String) : Clause :=
  let query := Clause.typeEq "Project"
  match user? with
  | none => query
  | some user =>
    if user == "" then query.and .isPublic
    else
      query.and ((((Clause.isPublic).or (.inPerm .owners user)).or
        (.inPerm .editors user)).or (.inPerm .viewers user))

/-- Embedding of `Database.getProjects(options)` (lines 438-471).
`queryPages` abstracts the paged query iterator
`this.metadata.items.query(query).getAsyncIterator()`: it yields the
`resources` array of each page of the constructed query, and the pages are
concatenated into `data`. -/
def getProjects (queryPages : Clause → List (List DBRecord)) (user? : Option String) :
    DatabaseResponse (List DBRecord) :=
  let data := (queryPages (getProjectsQuery user?)).flatten
  DatabaseResponse.make (some data) none none

/-- The query assembled by `getLanguages` (lines 353-365): base `type`
equality plus an optional project-membership clause. -/
def getLanguagesQuery (project? : Option String) : Clause :=
  let query := Clause.typeEq "Language"
  if strTruthy project? then query.and (.projectExists (project?.getD "")) else query

/-- Embedding of `Database.getLanguages(options)` (lines 353-376). -/
def getLanguages (queryPages : Clause → List (List DBRecord)) (project? : Option String) :
    DatabaseResponse (List DBRecord) :=
  let data := (queryPages (getLanguagesQuery project?)).flatten
  DatabaseResponse.make (some data) none none

/-- The query assembled by `getLexemes` (lines 395-409): base `type` equality
plus optional language and project clauses. -/
def getLexemesQuery (language? project? : Option String) : Clause :=
  let query := Clause.typeEq "Lexeme"
  let query :=
    if strTruthy language? then query.and (.languageEq (language?.getD "")) else query
  if strTruthy project? then query.and (.projectExists (project?.getD "")) else query

/-- Embedding of `Database.getLexemes(options)` (lines 395-421). -/
def getLexemes (queryPages : Clause → List (List DBRecord))
    (language? project? : Option String) : DatabaseResponse (List DBRecord) :=
  let data := (queryPages (getLexemesQuery language? project?)).flatten
  DatabaseResponse.make (some data) none none

/-- Embedding of `Database.getReferences()` (lines 486-499): a fixed
`type = 'BibliographicReference'` query, pages concatenated into `data`. -/
def getReferences (queryPages : Clause → List (List DBRecord)) :
    DatabaseResponse (List DBRecord) :=
  let data := (queryPages (Clause.typeEq "BibliographicReference")).flatten
  DatabaseResponse.make (some data) none none

/-- Whether the underlying `database.delete()` call was performed. -/
structure DeleteOutcome where
  performed : Bool
deriving DecidableEq, Repr

/-- The guard message thrown by `Database.delete` (line 97). -/
def deleteGuardMessage : String :=
  "This error is here to guard against accidental deletion. Comment it out or delete the database manually if you really truly actually srsly for realzies do want to delete the \"digitallinguistics\" database."

/-- Embedding of `Database.delete()` (lines 94-106): when `dbName` is
`digitallinguistics` an error is thrown (modelled by `Except.error`) before
the provider deletion runs; otherwise the deletion is performed. -/
def deleteDatabase (dbName : String) : Except String DeleteOutcome :=
  if dbName == "digitallinguistics" then .error deleteGuardMessage
  else .ok ⟨true⟩

end Database

/-! ### Properties of the chunker -/

theorem chunkFuel_congr : ∀ (m n : Nat) (l : List α) (size : Nat),
    l.length ≤ m → l.length ≤ n → chunkFuel m l size = chunkFuel n l size := by
  intro m
  induction m with
  | zero =>
    intro n l size hm _
    have : l = [] := List.eq_nil_of_length_eq_zero (Nat.le_zero.mp hm)
    subst this
    cases n <;> rfl
  | succ m ih =>
    intro n l size hm hn
    cases l with
    | nil => cases n <;> rfl
    | cons x xs =>
      cases n with
      | zero => simp at hn
      | succ n =>
        simp only [chunkFuel]
        congr 1
        apply ih
        · have := List.length_drop (size - 1) xs
          simp only [List.length_cons] at hm
          omega
        · have := List.length_drop (size - 1) xs
          simp only [List.length_cons] at hn
          omega

theorem chunk_nil (size : Nat) : chunk ([] : List α) size = [] := rfl

theorem chunk_cons (x : α) (xs : List α) (size : Nat) :
    chunk (x :: xs) size = (x :: xs.take (size - 1)) :: chunk (xs.drop (size - 1)) size := by
  show chunkFuel (x :: xs).length (x :: xs) size = _
  simp only [List.length_cons, chunkFuel]
  congr 1
  apply chunkFuel_congr
  · have := List.length_drop (size - 1) xs
    omega
  · exact Nat.le_refl _

/-- Induction principle following the recursion structure of `chunk`. -/
theorem chunk_rec (size : Nat) (P : List α → Prop) (h0 : P [])
    (h1 : ∀ x xs, P (xs.drop (size - 1)) → P (x :: xs)) : ∀ l, P l := by
  have key : ∀ n (l : List α), l.length ≤ n → P l := by
    intro n
    induction n with
    | zero =>
      intro l hl
      have : l = [] := List.eq_nil_of_length_eq_zero (Nat.le_zero.mp hl)
      subst this
      exact h0
    | succ n ih =>
      intro l hl
      cases l with
      | nil => exact h0
      | cons x xs =>
        refine h1 x xs (ih _ ?_)
        have := List.length_drop (size - 1) xs
        simp only [List.length_cons] at hl
        omega
  exact fun l => key l.length l (Nat.le_refl _)

theorem chunk_flatten (size : Nat) : ∀ l : List α, (chunk l size).flatten = l := by
  refine chunk_rec size _ rfl ?_
  intro x xs ih
  rw [chunk_cons]
  simp only [List.flatten_cons, ih]
  simp [List.take_append_drop]

theorem chunk_length_bounds (size : Nat) (hsize : 0 < size) :
    ∀ l : List α, ∀ c ∈ chunk l size, 0 < c.length ∧ c.length ≤ size := by
  refine chunk_rec size _ ?_ ?_
  · intro c hc
    simp [chunk_nil] at hc
  · intro x xs ih c hc
    rw [chunk_cons, List.mem_cons] at hc
    rcases hc with hc | hc
    · subst hc
      constructor
      · simp
      · simp only [List.length_cons, List.length_take]
        omega
    · exact ih c hc

theorem chunk_eq_nil_iff (size : Nat) (l : List α) : chunk l size = [] ↔ l = [] := by
  cases l with
  | nil => simp [chunk_nil]
  | cons x xs => simp [chunk_cons]

theorem chunk_dropLast_length (size : Nat) (hsize : 0 < size) :
    ∀ l : List α, ∀ c ∈ (chunk l size).dropLast, c.length = size := by
  refine chunk_rec size _ ?_ ?_
  · intro c hc
    simp [chunk_nil] at hc
  · intro x xs ih c hc
    rw [chunk_cons] at hc
    rcases h : chunk (xs.drop (size - 1)) size with _ | ⟨c2, rest⟩
    · rw [h] at hc
      simp at hc
    · rw [h] at hc
      rw [List.dropLast_cons₂, List.mem_cons] at hc
      rcases hc with hc | hc
      · subst hc
        have hdrop : xs.drop (size - 1) ≠ [] := by
          intro hnil
          rw [hnil] at h
          simp [chunk_nil] at h
        have : size - 1 < xs.length := by
          by_contra hcon
          push_neg at hcon
          exact hdrop (List.drop_eq_nil_of_le hcon)
        simp only [List.length_cons, List.length_take]
        omega
      · rw [← h] at hc
        exact ih c hc

/-! ### Properties of the addMany orchestration loop -/

namespace Database

theorem addManyGo_stop (batchFn : List (Operation α) → BatchResponse α) :
    ∀ (batches : List (List (Operation α))) (acc : List (OperationResult α)) (i : Nat),
    i < batches.length →
    (batchFn (batches.getD i [])).code = 207 →
    (∀ j, j < i → (batchFn (batches.getD j [])).code ≠ 207) →
    addManyGo batchFn batches acc =
      ⟨DatabaseResponse.make (some (.raw (batchFn (batches.getD i [])).result)) none (some 207),
        batches.take (i + 1)⟩ := by
  intro batches
  induction batches with
  | nil =>
    intro acc i hi _ _
    simp at hi
  | cons b rest ih =>
    intro acc i hi h207 hfst
    cases i with
    | zero =>
      simp only [List.getD_cons_zero] at h207
      simp [addManyGo, h207]
    | succ i =>
      have hb : (batchFn b).code ≠ 207 := by
        have := hfst 0 (Nat.succ_pos i)
        simpa using this
      simp only [List.getD_cons_succ] at h207 ⊢
      simp only [addManyGo, if_neg hb]
      rw [ih (acc ++ (batchFn b).result) i (by simpa using hi) h207
        (fun j hj => by simpa using hfst (j + 1) (Nat.succ_lt_succ hj))]
      simp [List.take_succ_cons]

theorem addManyGo_run (batchFn : List (Operation α) → BatchResponse α) :
    ∀ (batches : List (List (Operation α))) (acc : List (OperationResult α)),
    (∀ b ∈ batches, (batchFn b).code ≠ 207) →
    addManyGo batchFn batches acc =
      ⟨DatabaseResponse.make
        (some (.bodies ((acc ++ (batches.map fun b => (batchFn b).result).flatten).map
          (·.resourceBody))))
        none (some 201), batches⟩ := by
  intro batches
  induction batches with
  | nil =>
    intro acc _
    simp [addManyGo]
  | cons b rest ih =>
    intro acc h
    have hb : (batchFn b).code ≠ 207 := h b (List.mem_cons_self b rest)
    simp only [addManyGo, if_neg hb]
    rw [ih (acc ++ (batchFn b).result) (fun c hc => h c (List.mem_cons_of_mem b hc))]
    simp [List.append_assoc]

end Database

/-! ### Claim theorems -/

/-- C9: for every sequence S and every positive integer k, concatenating
`chunk S k` recovers S, every chunk except possibly the last has length
exactly k, every chunk is nonempty and of length at most k (so order and
content are preserved), and chunking the empty sequence yields an empty
sequence of chunks. -/
theorem chunk_spec {α : Type} (S : List α) (k : Nat) (hk : 0 < k) :
    (chunk S k).flatten = S ∧
    (∀ c ∈ (chunk S k).dropLast, c.length = k) ∧
    (∀ c ∈ chunk S k, 0 < c.length ∧ c.length ≤ k) ∧
    chunk ([] : List α) k = [] :=
  ⟨chunk_flatten k S, chunk_dropLast_length k hk S, chunk_length_bounds k hk S, chunk_nil k⟩

/-- Witness for the chunking claim at S = [1,2,3,4,5], k = 2. -/
theorem chunk_spec_witness :
    0 < 2 ∧
    ((chunk [1, 2, 3, 4, 5] 2).flatten = [1, 2, 3, 4, 5] ∧
      (∀ c ∈ (chunk [1, 2, 3, 4, 5] 2).dropLast, c.length = 2) ∧
      (∀ c ∈ chunk [1, 2, 3, 4, 5] 2, 0 < c.length ∧ c.length ≤ 2) ∧
      chunk ([] : List Nat) 2 = []) :=
  ⟨by decide, chunk_spec [1, 2, 3, 4, 5] 2 (by decide)⟩

namespace Database

/-- C1: for every call `addMany(container, partitionKey, items)`, the items
are chunked into consecutive groups of at most the bulk limit (100) and
dispatched strictly in input order; if the provider's batch response for a
chunk (here: the first such chunk, index i) carries aggregate code 207,
`addMany` returns immediately with that chunk's raw per-operation results
under status 207, and no chunk after it is ever dispatched (the dispatched
chunks are exactly the batches up to and including chunk i). -/
theorem addMany_stops_on_207 {α : Type}
    (batchFn : List (Operation α) → BatchResponse α) (items : List α) (i : Nat)
    (hi : i < (chunk (createOps items) bulkLimit).length)
    (h207 : (batchFn ((chunk (createOps items) bulkLimit).getD i [])).code = 207)
    (hfst : ∀ j, j < i → (batchFn ((chunk (createOps items) bulkLimit).getD j [])).code ≠ 207) :
    (∀ b ∈ chunk (createOps items) bulkLimit, b.length ≤ bulkLimit) ∧
    (chunk (createOps items) bulkLimit).flatten = createOps items ∧
    (addMany batchFn items).dispatched = (chunk (createOps items) bulkLimit).take (i + 1) ∧
    (addMany batchFn items).response =
      DatabaseResponse.make
        (some (.raw (batchFn ((chunk (createOps items) bulkLimit).getD i [])).result))
        none (some 207) := by
  have key := addManyGo_stop batchFn (chunk (createOps items) bulkLimit) [] i hi h207 hfst
  refine ⟨fun b hb => (chunk_length_bounds bulkLimit (by decide) _ b hb).2,
    chunk_flatten _ _, ?_, ?_⟩
  · rw [addMany, key]
  · rw [addMany, key]

/-- Witness for C1: 101 items with bulk limit 100 yield two chunks; the
provider reports 207 on the second (length-1) chunk, so both chunks are
dispatched and the raw results of the second are returned under 207. -/
theorem addMany_stops_on_207_witness :
    (1 < (chunk (createOps (List.range 101)) bulkLimit).length ∧
      ((fun ops => if ops.length = 1 then BatchResponse.mk 207 []
          else ⟨200, ops.map fun o => ⟨201, some o.resourceBody⟩⟩)
        ((chunk (createOps (List.range 101)) bulkLimit).getD 1 [])).code = 207 ∧
      (∀ j, j < 1 →
        ((fun ops => if ops.length = 1 then BatchResponse.mk 207 []
            else ⟨200, ops.map fun o => ⟨201, some o.resourceBody⟩⟩)
          ((chunk (createOps (List.range 101)) bulkLimit).getD j [])).code ≠ 207)) ∧
    ((∀ b ∈ chunk (createOps (List.range 101)) bulkLimit, b.length ≤ bulkLimit) ∧
      (chunk (createOps (List.range 101)) bulkLimit).flatten = createOps (List.range 101) ∧
      (addMany (fun ops => if ops.length = 1 then BatchResponse.mk 207 []
          else ⟨200, ops.map fun o => ⟨201, some o.resourceBody⟩⟩) (List.range 101)).dispatched =
        (chunk (createOps (List.range 101)) bulkLimit).take (1 + 1) ∧
      (addMany (fun ops => if ops.length = 1 then BatchResponse.mk 207 []
          else ⟨200, ops.map fun o => ⟨201, some o.resourceBody⟩⟩) (List.range 101)).response =
        DatabaseResponse.make
          (some (.raw ((fun ops => if ops.length = 1 then BatchResponse.mk 207 []
              else ⟨200, ops.map fun o => ⟨201, some o.resourceBody⟩⟩)
            ((chunk (createOps (List.range 101)) bulkLimit).getD 1 [])).result))
          none (some 207)) :=
  ⟨⟨by decide, by decide, by decide⟩,
    addMany_stops_on_207
      (fun ops => if ops.length = 1 then BatchResponse.mk 207 []
        else ⟨200, ops.map fun o => ⟨201, some o.resourceBody⟩⟩)
      (List.range 101) 1 (by decide) (by decide) (by decide)⟩

/-- C2: for every call `addMany(container, partitionKey, items)` in which no
dispatched chunk reports aggregate code 207, all chunks are dispatched and
`addMany` returns status 201 with data the concatenation, in input order
across all chunks, of the `resourceBody` of each per-operation result. -/
theorem addMany_full_success {α : Type}
    (batchFn : List (Operation α) → BatchResponse α) (items : List α)
    (hall : ∀ b ∈ chunk (createOps items) bulkLimit, (batchFn b).code ≠ 207) :
    (∀ b ∈ chunk (createOps items) bulkLimit, b.length ≤ bulkLimit) ∧
    (chunk (createOps items) bulkLimit).flatten = createOps items ∧
    (addMany batchFn items).dispatched = chunk (createOps items) bulkLimit ∧
    (addMany batchFn items).response =
      DatabaseResponse.make
        (some (.bodies
          ((((chunk (createOps items) bulkLimit).map fun b => (batchFn b).result).flatten).map
            (·.resourceBody))))
        none (some 201) := by
  have key := addManyGo_run batchFn (chunk (createOps items) bulkLimit) [] hall
  refine ⟨fun b hb => (chunk_length_bounds bulkLimit (by decide) _ b hb).2,
    chunk_flatten _ _, ?_, ?_⟩
  · rw [addMany, key]
  · rw [addMany, key]
    simp

/-- Witness for C2: 101 items, two chunks, the provider succeeds on both, and
the returned data is the ordered list of all 101 resource bodies. -/
theorem addMany_full_success_witness :
    (∀ b ∈ chunk (createOps (List.range 101)) bulkLimit,
      (((fun ops => BatchResponse.mk 200 (ops.map fun o => ⟨201, some o.resourceBody⟩)) :
        List (Operation Nat) → BatchResponse Nat) b).code ≠ 207) ∧
    ((∀ b ∈ chunk (createOps (List.range 101)) bulkLimit, b.length ≤ bulkLimit) ∧
      (chunk (createOps (List.range 101)) bulkLimit).flatten = createOps (List.range 101) ∧
      (addMany (fun ops => BatchResponse.mk 200 (ops.map fun o => ⟨201, some o.resourceBody⟩))
        (List.range 101)).dispatched = chunk (createOps (List.range 101)) bulkLimit ∧
      (addMany (fun ops => BatchResponse.mk 200 (ops.map fun o => ⟨201, some o.resourceBody⟩))
        (List.range 101)).response =
        DatabaseResponse.make
          (some (.bodies
            ((((chunk (createOps (List.range 101)) bulkLimit).map
              fun b => ((fun ops => BatchResponse.mk 200
                (ops.map fun o => ⟨201, some o.resourceBody⟩)) b).result).flatten).map
              (·.resourceBody))))
          none (some 201)) :=
  ⟨by decide,
    addMany_full_success
      (fun ops => BatchResponse.mk 200 (ops.map fun o => ⟨201, some o.resourceBody⟩))
      (List.range 101) (by decide)⟩

end Database

/-! ### Claims about getMany -/

theorem mapIdx_cons' (f : Nat → β → γ) (a : β) (l : List β) :
    (a :: l).mapIdx f = f 0 a :: l.mapIdx (fun i => f (i + 1)) := by
  simp [List.mapIdx_eq_ofFn, List.ofFn_succ]

theorem getD_mapIdx (f : Nat → β → γ) (l : List β) (i : Nat) (h : i < l.length)
    (d : γ) (db : β) : (l.mapIdx f).getD i d = f i (l.getD i db) := by
  induction l generalizing f i with
  | nil => simp at h
  | cons a t ih =>
    rw [mapIdx_cons']
    cases i with
    | zero => simp [List.getD_cons_zero]
    | succ i =>
      simp only [List.getD_cons_succ]
      exact ih _ _ (by simpa using h)

namespace Database

/-- C3: `getMany` with more than `bulkLimit` (100) ids returns a 400 response
carrying the limit message and performs no provider dispatch at all, while for
100 ids or fewer the single bulk dispatch of all the requested ids proceeds. -/
theorem getMany_limit_guard {α : Type}
    (bulkFn : List ReadOperation → List (OperationResult α))
    (partitionKey : String) (ids : List String) :
    (ids.length > bulkLimit →
      (getMany bulkFn partitionKey ids).response =
        DatabaseResponse.make none (some limitMessage) (some 400) ∧
      (getMany bulkFn partitionKey ids).dispatched = []) ∧
    (ids.length ≤ bulkLimit →
      (getMany bulkFn partitionKey ids).dispatched =
        [ids.map fun id => ReadOperation.mk id "Read" partitionKey]) := by
  constructor
  · intro h
    constructor <;> simp [getMany, h]
  · intro h
    simp [getMany, Nat.not_lt.mpr h]

/-- Witness for C3: 101 ids trigger the 400 guard with zero dispatches, and
3 ids produce exactly one bulk dispatch. -/
theorem getMany_limit_guard_witness :
    ((List.range 101).map toString).length > bulkLimit ∧
    ((getMany (fun ops => ops.map fun _ => (⟨200, none⟩ : OperationResult Nat)) "pk"
        ((List.range 101).map toString)).response =
      DatabaseResponse.make none (some limitMessage) (some 400) ∧
    (getMany (fun ops => ops.map fun _ => (⟨200, none⟩ : OperationResult Nat)) "pk"
        ((List.range 101).map toString)).dispatched = []) ∧
    (["a", "b", "c"].length ≤ bulkLimit ∧
      (getMany (fun ops => ops.map fun _ => (⟨200, none⟩ : OperationResult Nat)) "pk"
          ["a", "b", "c"]).dispatched =
        [["a", "b", "c"].map fun id => ReadOperation.mk id "Read" "pk"]) :=
  ⟨by decide,
    (getMany_limit_guard (fun ops => ops.map fun _ => (⟨200, none⟩ : OperationResult Nat))
      "pk" ((List.range 101).map toString)).1 (by decide),
    by decide,
    (getMany_limit_guard (fun ops => ops.map fun _ => (⟨200, none⟩ : OperationResult Nat))
      "pk" ["a", "b", "c"]).2 (by decide)⟩

/-- C4: for ids within the bulk limit, and a provider that answers one result
per operation (the Cosmos bulk contract), `getMany` returns status 207 with no
message, and its data holds exactly one entry per requested id, in the order
of `ids`, each entry carrying that id, the per-operation status code, and the
per-operation body (which is absent for a not-found id). -/
theorem getMany_entries_spec {α : Type}
    (bulkFn : List ReadOperation → List (OperationResult α))
    (partitionKey : String) (ids : List String)
    (hle : ids.length ≤ bulkLimit)
    (hlen : (bulkFn (ids.map fun id => ReadOperation.mk id "Read" partitionKey)).length =
      ids.length) :
    (getMany bulkFn partitionKey ids).response.status? = some 207 ∧
    (getMany bulkFn partitionKey ids).response.message? = none ∧
    ∃ data, (getMany bulkFn partitionKey ids).response.data? = some data ∧
      data.length = ids.length ∧
      ∀ i, i < ids.length →
        data.getD i default =
          GetManyEntry.mk
            (((bulkFn (ids.map fun id => ReadOperation.mk id "Read" partitionKey)).getD
              i default).resourceBody)
            (some (ids.getD i ""))
            (((bulkFn (ids.map fun id => ReadOperation.mk id "Read" partitionKey)).getD
              i default).statusCode) := by
  have hnot : ¬ ids.length > bulkLimit := Nat.not_lt.mpr hle
  refine ⟨by simp [getMany, hnot, DatabaseResponse.make],
    by simp [getMany, hnot, DatabaseResponse.make], ?_⟩
  refine ⟨(bulkFn (ids.map fun id => ReadOperation.mk id "Read" partitionKey)).mapIdx
      (fun i r => GetManyEntry.mk r.resourceBody
        (((ids.map fun id => ReadOperation.mk id "Read" partitionKey).get? i).map (·.id))
        r.statusCode), ?_, ?_, ?_⟩
  · simp [getMany, hnot, DatabaseResponse.make]
  · rw [List.length_mapIdx, hlen]
  · intro i hi
    rw [getD_mapIdx _ _ i (by rw [hlen]; exact hi) _ default]
    rw [List.get?_map, List.get?_eq_get hi]
    simp [List.getD_eq_getElem?_getD, List.getElem?_eq_getElem hi]

end Database

namespace Database

set_option maxHeartbeats 1000000 in
/-- Witness for C4: three ids, one of which the provider reports as 404 with
no body; the response is a 207 with one entry per id, in order. -/
theorem getMany_entries_spec_witness :
    (["a", "b", "c"].length ≤ bulkLimit ∧
      (((fun ops => ops.map fun o =>
          if o.id == "b" then (⟨404, none⟩ : OperationResult Nat) else ⟨200, some 7⟩) :
        List ReadOperation → List (OperationResult Nat))
        (["a", "b", "c"].map fun id => ReadOperation.mk id "Read" "pk")).length =
        ["a", "b", "c"].length) ∧
    ((getMany (fun ops => ops.map fun o =>
        if o.id == "b" then (⟨404, none⟩ : OperationResult Nat) else ⟨200, some 7⟩)
        "pk" ["a", "b", "c"]).response.status? = some 207 ∧
      (getMany (fun ops => ops.map fun o =>
        if o.id == "b" then (⟨404, none⟩ : OperationResult Nat) else ⟨200, some 7⟩)
        "pk" ["a", "b", "c"]).response.message? = none ∧
    ∃ data, (getMany (fun ops => ops.map fun o =>
        if o.id == "b" then (⟨404, none⟩ : OperationResult Nat) else ⟨200, some 7⟩)
        "pk" ["a", "b", "c"]).response.data? = some data ∧
      data.length = ["a", "b", "c"].length ∧
      ∀ i, i < ["a", "b", "c"].length →
        data.getD i default =
          GetManyEntry.mk
            ((((fun ops => ops.map fun o =>
                if o.id == "b" then (⟨404, none⟩ : OperationResult Nat) else ⟨200, some 7⟩) :
              List ReadOperation → List (OperationResult Nat))
              (["a", "b", "c"].map fun id => ReadOperation.mk id "Read" "pk")).getD
                i default).resourceBody
            (some (["a", "b", "c"].getD i ""))
            ((((fun ops => ops.map fun o =>
                if o.id == "b" then (⟨404, none⟩ : OperationResult Nat) else ⟨200, some 7⟩) :
              List ReadOperation → List (OperationResult Nat))
              (["a", "b", "c"].map fun id => ReadOperation.mk id "Read" "pk")).getD
                i default).statusCode) :=
  ⟨⟨by decide, by decide⟩,
    getMany_entries_spec
      (fun ops => ops.map fun o =>
        if o.id == "b" then (⟨404, none⟩ : OperationResult Nat) else ⟨200, some 7⟩)
      "pk" ["a", "b", "c"] (by decide) (by decide)⟩

end Database

namespace Database

/-- C5: `getProjects` builds its query from the presence and truthiness of the
`user` option: with no user key the only constraint is the base type
predicate (all projects); with the key present but falsy the query restricts
to public records only; with a truthy user id `u` it restricts to records
that are public or have `u` in the owners, editors or viewers array.  The
last conjunct records that `getProjects` sends exactly this query to the
provider and returns the concatenated pages as its data. -/
theorem getProjects_user_filter (r : DBRecord) :
    ((getProjectsQuery none).eval r = (r.type == "Project")) ∧
    ((getProjectsQuery (some "")).eval r =
      (r.type == "Project" && r.permissions.isPublic)) ∧
    (∀ u : String, u ≠ "" →
      (getProjectsQuery (some u)).eval r =
        (r.type == "Project" &&
          (r.permissions.isPublic || r.permissions.owners.contains u ||
            r.permissions.editors.contains u || r.permissions.viewers.contains u))) ∧
    (∀ (queryPages : Clause → List (List DBRecord)) (user? : Option String),
      getProjects queryPages user? =
        DatabaseResponse.make (some ((queryPages (getProjectsQuery user?)).flatten))
          none none) := by
  refine ⟨rfl, rfl, ?_, fun _ _ => rfl⟩
  intro u hu
  have hne : (u == "") = false := beq_eq_false_iff_ne.mpr hu
  simp [getProjectsQuery, Clause.eval, hne, Bool.or_assoc]

/-- Witness for C5 at a concrete record and user id u1: the record is private
but lists u1 as an editor, so the truthy-user query selects it. -/
theorem getProjects_user_filter_witness :
    (((getProjectsQuery none).eval
        (DBRecord.mk "Project" "" [] (Permissions.mk false [] ["u1"] [])) =
      ((DBRecord.mk "Project" "" [] (Permissions.mk false [] ["u1"] [])).type ==
        "Project")) ∧
      ("u1" : String) ≠ "" ∧
      (getProjectsQuery (some "u1")).eval
        (DBRecord.mk "Project" "" [] (Permissions.mk false [] ["u1"] [])) = true) :=
  ⟨(getProjects_user_filter _).1, by decide, by
    rw [((getProjects_user_filter
      (DBRecord.mk "Project" "" [] (Permissions.mk false [] ["u1"] []))).2.2.1 "u1"
      (by decide))]
    decide⟩

/-- C6: when the provider's create fails with code 409 (uniqueness conflict),
`addOne` returns the message `Item with ID <data.id> already exists.` with the
error's code as status; any other provider error has its own message and code
passed through unchanged; and against a store that already contains the id
(modelled `storeCreate`), `addOne` deterministically yields this
conflict-shaped response, so retrying gives the same response again. -/
theorem addOne_conflict_normalization
    (validateFn : Item → Except ErrorInfo Unit)
    (createFn : Item → Except ErrorInfo CreateResult)
    (data : Item) (e : ErrorInfo)
    (hv : validateFn data = .ok ())
    (hc : createFn data = .error e) :
    (e.code = 409 → addOne validateFn createFn data =
      .ok (DatabaseResponse.make none
        (some ("Item with ID " ++ data.id ++ " already exists.")) (some e.code))) ∧
    (e.code ≠ 409 → addOne validateFn createFn data =
      .ok (DatabaseResponse.make none (some e.message) (some e.code))) ∧
    (∀ store : List Item, (store.any fun item => item.id == data.id) = true →
      addOne validateFn (storeCreate store) data =
        .ok (DatabaseResponse.make none
          (some ("Item with ID " ++ data.id ++ " already exists.")) (some 409))) := by
  refine ⟨?_, ?_, ?_⟩
  · intro h409
    simp [addOne, hv, hc, h409]
  · intro hne
    simp [addOne, hv, hc, hne]
  · intro store hdup
    simp [addOne, hv, storeCreate, hdup]

/-- Witness for C6: a 409 provider error on item abc produces the conflict
message, and a store already containing id abc produces the same response. -/
theorem addOne_conflict_normalization_witness :
    (((fun _ => Except.ok ()) : Item → Except ErrorInfo Unit) (Item.mk "abc" 0) =
        Except.ok () ∧
      ((fun _ => Except.error ⟨409, "raw provider text"⟩) :
        Item → Except ErrorInfo CreateResult) (Item.mk "abc" 0) =
        Except.error ⟨409, "raw provider text"⟩ ∧
      (409 : Nat) = 409 ∧
      ([Item.mk "abc" 7].any fun item => item.id == (Item.mk "abc" 0).id) = true) ∧
    addOne (fun _ => Except.ok ())
      (fun _ => Except.error ⟨409, "raw provider text"⟩) (Item.mk "abc" 0) =
      .ok (DatabaseResponse.make none
        (some ("Item with ID " ++ (Item.mk "abc" 0).id ++ " already exists."))
        (some 409)) ∧
    addOne (fun _ => Except.ok ()) (storeCreate [Item.mk "abc" 7]) (Item.mk "abc" 0) =
      .ok (DatabaseResponse.make none
        (some ("Item with ID " ++ (Item.mk "abc" 0).id ++ " already exists."))
        (some 409)) :=
  ⟨⟨rfl, rfl, rfl, by decide⟩,
    (addOne_conflict_normalization (fun _ => Except.ok ())
      (fun _ => Except.error ⟨409, "raw provider text"⟩)
      (Item.mk "abc" 0) ⟨409, "raw provider text"⟩ rfl rfl).1 rfl,
    (addOne_conflict_normalization (fun _ => Except.ok ())
      (fun _ => Except.error ⟨409, "raw provider text"⟩)
      (Item.mk "abc" 0) ⟨409, "raw provider text"⟩ rfl rfl).2.2
      [Item.mk "abc" 7] (by decide)⟩

end Database

namespace Database

/-- Counterexample to C7: `validate` is called outside the try/catch of
`addOne` (line 188 vs line 190), so a validation error thrown by the
`validate` collaborator propagates out of `addOne` as an unhandled failure
instead of being returned as a normalized failure response, and this is not
the production-delete guard. -/
theorem validation_error_propagates :
    addOne (fun _ => .error ⟨422, "Validation failed."⟩)
      (fun d => .ok ⟨d, 201⟩) (Item.mk "abc" 0) =
      .error ⟨422, "Validation failed."⟩ := rfl

/-- C7 (amended): every modeled public operation returns a normalized
response rather than propagating an unhandled failure, except that (a) the
production-delete guard in `delete()` throws when `dbName` is
`digitallinguistics` and the underlying deletion is not performed, (b) a
validation error thrown by `validate` propagates out of `addOne` because
validation runs before the try/catch, so `addOne` returns a normalized
response exactly when validation passes, and (c) `count` throws when the
provider returns zero aggregate rows and returns a response otherwise. -/
theorem operations_return_normalized :
    (∀ (validateFn : Item → Except ErrorInfo Unit)
      (createFn : Item → Except ErrorInfo CreateResult) (data : Item),
      validateFn data = .ok () →
      ∃ resp, addOne validateFn createFn data = .ok resp) ∧
    (deleteDatabase "digitallinguistics" = .error deleteGuardMessage) ∧
    (∀ dbName : String, dbName ≠ "digitallinguistics" →
      deleteDatabase dbName = .ok ⟨true⟩) ∧
    (∀ (queryFn : Clause → List AggRow) (type : String) (options : CountOptions),
      queryFn (countQuery type options) ≠ [] → (count queryFn type options).isSome) ∧
    (∀ {α : Type} (bulkFn : List ReadOperation → List (OperationResult α))
      (partitionKey : String) (ids : List String),
      (getMany bulkFn partitionKey ids).response.status?.isSome) ∧
    (∀ {α : Type} (batchFn : List (Operation α) → BatchResponse α) (items : List α),
      (addMany batchFn items).response.status?.isSome) := by
  refine ⟨?_, rfl, ?_, ?_, ?_, ?_⟩
  · intro validateFn createFn data hv
    cases hc : createFn data with
    | ok res =>
      exact ⟨DatabaseResponse.make (some res.resource) none (some res.statusCode),
        by simp [addOne, hv, hc]⟩
    | error err =>
      exact ⟨DatabaseResponse.make none
        (some (if err.code = 409 then "Item with ID " ++ data.id ++ " already exists."
          else err.message)) (some err.code),
        by simp [addOne, hv, hc]⟩
  · intro dbName hne
    simp [deleteDatabase, hne]
  · intro queryFn type options hne
    cases h : queryFn (countQuery type options) with
    | nil => exact absurd h hne
    | cons row rest => simp [count, h]
  · intro α bulkFn partitionKey ids
    by_cases h : ids.length > bulkLimit <;>
      simp [getMany, h, DatabaseResponse.make]
  · intro α batchFn items
    rw [addMany]
    generalize chunk (createOps items) bulkLimit = batches
    have key : ∀ (bs : List (List (Operation α))) (acc : List (OperationResult α)),
        (addManyGo batchFn bs acc).response.status?.isSome := by
      intro bs
      induction bs with
      | nil =>
        intro acc
        simp [addManyGo, DatabaseResponse.make]
      | cons b rest ih =>
        intro acc
        by_cases hb : (batchFn b).code = 207 <;>
          simp [addManyGo, hb, DatabaseResponse.make, ih]
    exact key batches []

/-- Witness for C7 (amended) at concrete inputs for each guarded conjunct. -/
theorem operations_return_normalized_witness :
    (((fun _ => Except.ok ()) : Item → Except ErrorInfo Unit) (Item.mk "a" 0) =
        .ok () ∧
      ∃ resp, addOne (fun _ => Except.ok ())
        (fun d => Except.ok ⟨d, 201⟩) (Item.mk "a" 0) = .ok resp) ∧
    (("test" : String) ≠ "digitallinguistics" ∧ deleteDatabase "test" = .ok ⟨true⟩) ∧
    ((((fun _ => [AggRow.mk (some 3)]) : Clause → List AggRow)
        (countQuery "Language" ⟨none, none⟩) ≠ []) ∧
      (count (fun _ => [AggRow.mk (some 3)]) "Language" ⟨none, none⟩).isSome) :=
  ⟨⟨rfl, operations_return_normalized.1 (fun _ => Except.ok ())
      (fun d => Except.ok ⟨d, 201⟩) (Item.mk "a" 0) rfl⟩,
    ⟨by decide, operations_return_normalized.2.2.1 "test" (by decide)⟩,
    ⟨by simp, operations_return_normalized.2.2.2.1 (fun _ => [AggRow.mk (some 3)])
      "Language" ⟨none, none⟩ (by simp)⟩⟩

/-- C8 (spec-modelled `DatabaseResponse`): every response returned by the
modeled operations has its status present; for `count`, `getLanguages`,
`getLexemes`, `getProjects` and `getReferences` the data is present and no
message is attached (these are success responses). -/
theorem response_invariant :
    (∀ (queryFn : Clause → List AggRow) (type : String) (options : CountOptions)
      (resp : DatabaseResponse CountData),
      count queryFn type options = some resp →
      resp.status?.isSome ∧ resp.data?.isSome ∧ resp.message? = none) ∧
    (∀ (queryPages : Clause → List (List DBRecord)) (project? : Option String),
      (getLanguages queryPages project?).status?.isSome ∧
      (getLanguages queryPages project?).data?.isSome ∧
      (getLanguages queryPages project?).message? = none) ∧
    (∀ (queryPages : Clause → List (List DBRecord)) (language? project? : Option String),
      (getLexemes queryPages language? project?).status?.isSome ∧
      (getLexemes queryPages language? project?).data?.isSome ∧
      (getLexemes queryPages language? project?).message? = none) ∧
    (∀ (queryPages : Clause → List (List DBRecord)) (user? : Option String),
      (getProjects queryPages user?).status?.isSome ∧
      (getProjects queryPages user?).data?.isSome ∧
      (getProjects queryPages user?).message? = none) ∧
    (∀ queryPages : Clause → List (List DBRecord),
      (getReferences queryPages).status?.isSome ∧
      (getReferences queryPages).data?.isSome ∧
      (getReferences queryPages).message? = none) := by
  refine ⟨?_, ?_, ?_, ?_, ?_⟩
  · intro queryFn type options resp h
    cases hq : queryFn (countQuery type options) with
    | nil => rw [count, hq] at h; cases h
    | cons row rest =>
      rw [count, hq] at h
      cases h
      exact ⟨rfl, rfl, rfl⟩
  · exact fun _ _ => ⟨rfl, rfl, rfl⟩
  · exact fun _ _ _ => ⟨rfl, rfl, rfl⟩
  · exact fun _ _ => ⟨rfl, rfl, rfl⟩
  · exact fun _ => ⟨rfl, rfl, rfl⟩

/-- Witness for C8: a concrete one-row aggregate result makes `count` return
a response satisfying the invariant. -/
theorem response_invariant_witness :
    count (fun _ => [AggRow.mk (some 12)]) "Lexeme" ⟨some "lang1", none⟩ =
      some (DatabaseResponse.make (some ⟨some 12⟩) none none) ∧
    ((DatabaseResponse.make (some (CountData.mk (some 12))) none none).status?.isSome ∧
      (DatabaseResponse.make (some (CountData.mk (some 12))) none none).data?.isSome ∧
      (DatabaseResponse.make (some (CountData.mk (some 12))) none none).message? = none) :=
  ⟨rfl, response_invariant.1 (fun _ => [AggRow.mk (some 12)]) "Lexeme"
    ⟨some "lang1", none⟩ (DatabaseResponse.make (some ⟨some 12⟩) none none) rfl⟩

/-- C10: `count` returns a response only when the provider's aggregate query
yields at least one row: on an empty `resources` list the destructuring of
the first row throws (modelled `none`) instead of returning a count of 0,
and on a nonempty list the first row's aggregate becomes the returned count. -/
theorem count_requires_row :
    (∀ (queryFn : Clause → List AggRow) (type : String) (options : CountOptions),
      queryFn (countQuery type options) = [] → count queryFn type options = none) ∧
    (∀ (queryFn : Clause → List AggRow) (type : String) (options : CountOptions)
      (row : AggRow) (rest : List AggRow),
      queryFn (countQuery type options) = row :: rest →
      count queryFn type options =
        some (DatabaseResponse.make (some ⟨row.agg1⟩) none none)) := by
  constructor
  · intro queryFn type options h
    rw [count, h]
  · intro queryFn type options row rest h
    rw [count, h]

/-- Witness for C10: a provider returning zero rows makes `count` throw
(return no response), and a provider returning one row yields its count. -/
theorem count_requires_row_witness :
    (((fun _ => []) : Clause → List AggRow) (countQuery "Language" ⟨none, none⟩) = [] ∧
      count (fun _ => []) "Language" ⟨none, none⟩ = none) ∧
    (((fun _ => [AggRow.mk (some 0)]) : Clause → List AggRow)
        (countQuery "Language" ⟨none, none⟩) = [AggRow.mk (some 0)] ∧
      count (fun _ => [AggRow.mk (some 0)]) "Language" ⟨none, none⟩ =
        some (DatabaseResponse.make (some ⟨some 0⟩) none none)) :=
  ⟨⟨rfl, count_requires_row.1 (fun _ => []) "Language" ⟨none, none⟩ rfl⟩,
    ⟨rfl, count_requires_row.2 (fun _ => [AggRow.mk (some 0)]) "Language" ⟨none, none⟩
      (AggRow.mk (some 0)) [] rfl⟩⟩

end Database
